import Mathlib

/-!
Verification of the `emukit.core.loop` package aggregation module and the
loop components it re-exports.

The only source file available is `src/emukit/core/loop/__init__.py`, an
11-line re-export module.  That file is embedded directly below as a list
of Python statements.  The components it re-exports (`LoopState`,
`OuterLoop`, the stopping conditions, model updaters, candidate point
calculators and the user-function wrappers) live in sibling modules that
are not part of the provided sources; they are modelled from the
specification, each such definition carrying a doc comment that says so.
-/

namespace EmukitLoop

/-- A statement of a Python module, at the granularity needed here: comment
lines, `from M import a, b` statements, and the kinds of statement that
would carry algorithmic content (assignments, function definitions, bare
calls), which the embedded module must be shown not to contain. -/
inductive PyStmt
| comment (text : String)
| fromImport (module : String) (names : List String)
| assign (name : String) (value : Int)
| funcDef (name : String) (body : List String)
| exprCall (fn : String)
deriving DecidableEq

/-- The module `src/emukit/core/loop/__init__.py`, statement by statement,
in source order (blank lines omitted). -/
def loop_init_py : List PyStmt :=
[ PyStmt.comment "Copyright 2018 Amazon.com, Inc. or its affiliates. All Rights Reserved.",
  PyStmt.comment "SPDX-License-Identifier: Apache-2.0",
  PyStmt.fromImport "loop_state" ["LoopState"],
  PyStmt.fromImport "user_function" ["UserFunction", "UserFunctionWrapper"],
  PyStmt.fromImport "outer_loop" ["OuterLoop"],
  PyStmt.fromImport "user_function_result" ["UserFunctionResult"],
  PyStmt.fromImport "stopping_conditions" ["StoppingCondition", "FixedIterationsStoppingCondition"],
  PyStmt.fromImport "model_updaters" ["ModelUpdater", "FixedIntervalUpdater"],
  PyStmt.fromImport "candidate_point_calculators" ["CandidatePointCalculator", "Sequential"] ]

/-- The names a single statement binds in the enclosing namespace. -/
def PyStmt.boundNames : PyStmt → List String
| PyStmt.comment _ => []
| PyStmt.fromImport _ ns => ns
| PyStmt.assign n _ => [n]
| PyStmt.funcDef n _ => [n]
| PyStmt.exprCall _ => []

/-- All names bound by executing a module top to bottom. -/
def moduleBoundNames (m : List PyStmt) : List String :=
(m.map PyStmt.boundNames).flatten

/-- `true` exactly for statements that only bind re-exported names (or are
comments): no algorithmic content, no data-structure definition, no control
flow, no calls. -/
def PyStmt.bindsOnly : PyStmt → Bool
| PyStmt.comment _ => true
| PyStmt.fromImport _ _ => true
| _ => false

/-- Observable interpreter state when executing a module: the namespace
bindings it has made and a log of any other observable effects. -/
structure PyState where
bindings : List String
effects : List String
deriving DecidableEq

/-- Effect of one statement on the interpreter state.  Comments do nothing;
imports and definitions bind names; a bare call is logged as an observable
effect. -/
def execStmt (s : PyState) : PyStmt → PyState
| PyStmt.comment _ => s
| PyStmt.fromImport _ ns => { s with bindings := s.bindings ++ ns }
| PyStmt.assign n _ => { s with bindings := s.bindings ++ [n] }
| PyStmt.funcDef n _ => { s with bindings := s.bindings ++ [n] }
| PyStmt.exprCall f => { s with effects := s.effects ++ [f] }

/-- Executing (importing) a whole module. -/
def runModule (m : List PyStmt) (s : PyState) : PyState :=
m.foldl execStmt s

/-- Modelled from the spec: an `Observation`, produced by evaluating the
user function (the defining module is not in the provided sources): "an
input vector and its corresponding output vector(s)". -/
structure Observation where
X : List Int
Y : List Int
deriving DecidableEq

/-- Modelled from the spec: `LoopState` from the missing module
`loop_state.py`: "an ordered sequence of Observations plus an iteration
counter". -/
structure LoopState where
observations : List Observation
iteration : Nat
deriving DecidableEq

/-- Modelled from the spec: `LoopState` "supports appending a batch of new
observations". -/
def LoopState.append (st : LoopState) (obs : List Observation) : LoopState :=
{ st with observations := st.observations ++ obs }

/-- Modelled from the spec: `LoopState` supports "advancing the counter". -/
def LoopState.advance (st : LoopState) : LoopState :=
{ st with iteration := st.iteration + 1 }

/-- The mutating operations `LoopState` supports, per the spec: appending a
batch of observations and advancing the counter; there is no removal
operation. -/
inductive LoopStateOp
| append (obs : List Observation)
| advance

/-- Applying a `LoopState` operation. -/
def LoopStateOp.apply : LoopStateOp → LoopState → LoopState
| LoopStateOp.append obs, st => st.append obs
| LoopStateOp.advance, st => st.advance

/-- Modelled from the spec: `UserFunction` from the missing module
`user_function.py`: the uniform evaluation interface the loop consumes,
turning an input vector into an `Observation`. -/
structure UserFunction where
f : List Int → List Int

/-- Evaluating the user function on one input yields the input paired with
its output. -/
def UserFunction.evaluate (u : UserFunction) (x : List Int) : Observation :=
Observation.mk x (u.f x)

/-- Modelled from the spec: `UserFunctionWrapper` from the missing module
`user_function.py`: "adapts an arbitrary callable evaluation target",
where the wrapped callable may fail on a given input. -/
structure UserFunctionWrapper where
f : List Int → Option (List Int)

/-- Modelled from the spec: batch evaluation through the wrapper: "given
one or more candidate inputs, evaluates the wrapped function and returns
Observations of matching cardinality. Failure mode: surfaces an evaluation
error rather than silently dropping a candidate". -/
def UserFunctionWrapper.evaluate (w : UserFunctionWrapper) :
    List (List Int) → Except String (List Observation)
| [] => Except.ok []
| x :: xs =>
  match w.f x with
  | none => Except.error "user function evaluation failed"
  | some y =>
    match w.evaluate xs with
    | Except.error e => Except.error e
    | Except.ok rest => Except.ok (Observation.mk x y :: rest)

/-- Modelled from the spec: the surrogate model fitted by the modeling
library (out of scope there, abstracted here as opaque parameter data). -/
structure Model where
params : List Int
deriving DecidableEq

/-- Modelled from the spec: `ModelUpdater` from the missing module
`model_updaters.py`: "given the current LoopState, updates or rebuilds an
internal surrogate model". -/
structure ModelUpdater where
update : Model → LoopState → Model

/-- Modelled from the spec: `CandidatePointCalculator` from the missing
module `candidate_point_calculators.py`: "proposes the next input(s) to
evaluate, given the current model and state". -/
structure CandidatePointCalculator where
compute_next_points : Model → LoopState → List (List Int)

/-- Modelled from the spec: the `Sequential` candidate point calculator,
built over an acquisition optimizer that picks a single point. -/
structure Sequential where
acquisition_optimizer : Model → LoopState → List Int

/-- Modelled from the spec: the `Sequential` "variant proposes exactly one
candidate per call". -/
def Sequential.compute_next_points (sq : Sequential) (m : Model) (st : LoopState) :
    List (List Int) :=
[sq.acquisition_optimizer m st]

/-- `Sequential` used as a `CandidatePointCalculator` (the subclassing
relation of the Python code). -/
def Sequential.calculator (sq : Sequential) : CandidatePointCalculator :=
CandidatePointCalculator.mk sq.compute_next_points

/-- Modelled from the spec: `StoppingCondition` from the missing module
`stopping_conditions.py`: "given LoopState, returns whether the loop should
halt". -/
structure StoppingCondition where
should_stop : LoopState → Bool

/-- Modelled from the spec: `FixedIterationsStoppingCondition`, holding its
configured bound. -/
structure FixedIterationsStoppingCondition where
i_max : Nat
deriving DecidableEq

/-- Modelled from the spec: the fixed-iterations variant "halts once the
iteration counter reaches a configured bound — a pure function of counter
value". -/
def FixedIterationsStoppingCondition.should_stop
    (c : FixedIterationsStoppingCondition) (st : LoopState) : Bool :=
decide (c.i_max ≤ st.iteration)

/-- `FixedIterationsStoppingCondition` used as a `StoppingCondition` (the
subclassing relation of the Python code). -/
def FixedIterationsStoppingCondition.toStoppingCondition
    (c : FixedIterationsStoppingCondition) : StoppingCondition :=
StoppingCondition.mk c.should_stop

/-- Modelled from the spec: `OuterLoop` from the missing module
`outer_loop.py`: "orchestrates the above into an iterate-evaluate-update
cycle". -/
structure OuterLoop where
candidate_point_calculator : CandidatePointCalculator
model_updater : ModelUpdater
user_function : UserFunction

/-- The full state an `OuterLoop` run threads: the loop state it owns and
the current surrogate model. -/
structure LoopRunState where
loop_state : LoopState
model : Model
deriving DecidableEq

/-- Modelled from the spec: one cycle of the outer loop, in the stated
order: "propose candidate → evaluate → append observation → update model →
advance counter". -/
def OuterLoop.step (loop : OuterLoop) (s : LoopRunState) : LoopRunState :=
let candidates := loop.candidate_point_calculator.compute_next_points s.model s.loop_state
let new_obs := candidates.map loop.user_function.evaluate
let appended := s.loop_state.append new_obs
let new_model := loop.model_updater.update s.model appended
LoopRunState.mk appended.advance new_model

/-- Running exactly `k` completed cycles (no stopping check), cycle `i`
acting on the state left by the first `i` cycles. -/
def OuterLoop.run_n (loop : OuterLoop) : Nat → LoopRunState → LoopRunState
| 0, s => s
| k + 1, s => loop.step (loop.run_n k s)

/-- Number of candidates the calculator proposes in cycle `i` of a run
started from `s`. -/
def OuterLoop.cycleCandidates (loop : OuterLoop) (s : LoopRunState) (i : Nat) : Nat :=
(loop.candidate_point_calculator.compute_next_points
  (loop.run_n i s).model (loop.run_n i s).loop_state).length

/-- Modelled from the spec: the outer loop proper: before each cycle the
stopping condition is consulted and the loop halts as soon as it signals
true; otherwise one full cycle runs.  `fuel` bounds the recursion; the
returned `Nat` counts the evaluate/update cycles actually performed. -/
def OuterLoop.run_loop (loop : OuterLoop) (sc : StoppingCondition) :
    Nat → LoopRunState → LoopRunState × Nat
| 0, s => (s, 0)
| fuel + 1, s =>
  if sc.should_stop s.loop_state then (s, 0)
  else
    let r := loop.run_loop sc fuel (loop.step s)
    (r.1, r.2 + 1)

/-- The two phases of the outer loop viewed as a state machine. -/
inductive LoopPhase
| Running
| Stopped
deriving DecidableEq

/-- The outer loop as a state machine on `LoopPhase × LoopRunState`:
`Stopped` is absorbing; from `Running` the machine moves to `Stopped` when
the stopping condition signals true and otherwise performs one full cycle
and stays `Running`. -/
def OuterLoop.machineStep (loop : OuterLoop) (sc : StoppingCondition) :
    LoopPhase × LoopRunState → LoopPhase × LoopRunState
| (LoopPhase.Stopped, s) => (LoopPhase.Stopped, s)
| (LoopPhase.Running, s) =>
  if sc.should_stop s.loop_state then (LoopPhase.Stopped, s)
  else (LoopPhase.Running, loop.step s)

/-- A concrete `Sequential` calculator used by the concrete witnesses. -/
def seqEx : Sequential :=
Sequential.mk (fun _ st => [Int.ofNat st.iteration])

/-- A concrete model updater used by the concrete witnesses. -/
def updEx : ModelUpdater :=
ModelUpdater.mk (fun m _ => m)

/-- A concrete user function used by the concrete witnesses. -/
def ufEx : UserFunction :=
UserFunction.mk (fun x => x)

/-- A concrete outer loop used by the concrete witnesses. -/
def loopEx : OuterLoop :=
OuterLoop.mk seqEx.calculator updEx ufEx

/-- A concrete fixed-iterations stopping condition with bound 2. -/
def fic2 : FixedIterationsStoppingCondition :=
FixedIterationsStoppingCondition.mk 2

/-- A concrete initial run state: no observations, counter 0. -/
def sEx : LoopRunState :=
LoopRunState.mk (LoopState.mk [] 0) (Model.mk [])

/-- A concrete run state whose counter has already reached the bound 2. -/
def sStopEx : LoopRunState :=
LoopRunState.mk (LoopState.mk [] 2) (Model.mk [])

/-- A concrete loop state with counter 5 and no observations. -/
def s1Ex : LoopState :=
LoopState.mk [] 5

/-- A concrete loop state with counter 5 and one observation. -/
def s2Ex : LoopState :=
LoopState.mk [Observation.mk [0] [1]] 5

/-- C1: importing `emukit.core.loop` binds every named kind of component:
the loop-state container `LoopState`, the user-function abstractions
`UserFunction` and `UserFunctionWrapper`, the outer loop `OuterLoop`, the
stopping conditions `StoppingCondition` and `FixedIterationsStoppingCondition`,
the model updater `ModelUpdater`, and the candidate point calculators
`CandidatePointCalculator` and `Sequential`. -/
theorem loop_init_reexports_all_components :
"LoopState" ∈ (runModule loop_init_py (PyState.mk [] [])).bindings ∧
"UserFunction" ∈ (runModule loop_init_py (PyState.mk [] [])).bindings ∧
"UserFunctionWrapper" ∈ (runModule loop_init_py (PyState.mk [] [])).bindings ∧
"OuterLoop" ∈ (runModule loop_init_py (PyState.mk [] [])).bindings ∧
"StoppingCondition" ∈ (runModule loop_init_py (PyState.mk [] [])).bindings ∧
"FixedIterationsStoppingCondition" ∈ (runModule loop_init_py (PyState.mk [] [])).bindings ∧
"ModelUpdater" ∈ (runModule loop_init_py (PyState.mk [] [])).bindings ∧
"CandidatePointCalculator" ∈ (runModule loop_init_py (PyState.mk [] [])).bindings ∧
"Sequential" ∈ (runModule loop_init_py (PyState.mk [] [])).bindings := by
decide

/-- C9: the fragment consists solely of comments and re-export imports, and
importing it only appends the re-exported names to the namespace: starting
from any interpreter state, the bindings grow by exactly the module's bound
names and no other observable effect occurs. -/
theorem loop_init_bindings_only :
(∀ stmt ∈ loop_init_py, stmt.bindsOnly = true) ∧
(∀ s : PyState,
  runModule loop_init_py s =
    PyState.mk (s.bindings ++ moduleBoundNames loop_init_py) s.effects) := by
constructor
· decide
· intro s
  simp [runModule, loop_init_py, execStmt, moduleBoundNames, PyStmt.boundNames]

/-- Concrete instantiation of `loop_init_bindings_only`: the first import
statement is binding-only, and importing into an empty interpreter state
yields exactly the module's bound names and no effects. -/
theorem loop_init_bindings_only_witness :
PyStmt.fromImport "loop_state" ["LoopState"] ∈ loop_init_py ∧
(PyStmt.fromImport "loop_state" ["LoopState"]).bindsOnly = true ∧
runModule loop_init_py (PyState.mk [] []) =
  PyState.mk (([] : List String) ++ moduleBoundNames loop_init_py) [] :=
⟨by decide,
 loop_init_bindings_only.1 (PyStmt.fromImport "loop_state" ["LoopState"]) (by decide),
 loop_init_bindings_only.2 (PyState.mk [] [])⟩

/-- C10: importing the module binds exactly eleven public names, in source
order, among them `UserFunctionResult` and `FixedIntervalUpdater`. -/
theorem loop_init_binds_exactly_eleven_names :
moduleBoundNames loop_init_py =
  ["LoopState", "UserFunction", "UserFunctionWrapper", "OuterLoop",
   "UserFunctionResult", "StoppingCondition", "FixedIterationsStoppingCondition",
   "ModelUpdater", "FixedIntervalUpdater", "CandidatePointCalculator",
   "Sequential"] ∧
(moduleBoundNames loop_init_py).length = 11 ∧
"UserFunctionResult" ∈ moduleBoundNames loop_init_py ∧
"FixedIntervalUpdater" ∈ moduleBoundNames loop_init_py := by
decide

/-- Each cycle advances the iteration counter by exactly one. -/
theorem step_iteration (loop : OuterLoop) (s : LoopRunState) :
(loop.step s).loop_state.iteration = s.loop_state.iteration + 1 := by
simp [OuterLoop.step, LoopState.append, LoopState.advance]

/-- Each cycle appends exactly the evaluated candidates to the history. -/
theorem step_observations (loop : OuterLoop) (s : LoopRunState) :
(loop.step s).loop_state.observations =
  s.loop_state.observations ++
    (loop.candidate_point_calculator.compute_next_points s.model
      s.loop_state).map loop.user_function.evaluate := by
simp [OuterLoop.step, LoopState.append, LoopState.advance]

/-- Exact accounting for a fixed-iterations run: when the fuel suffices,
the number of cycles performed is the gap between the bound and the initial
counter, and the final counter is their maximum. -/
theorem run_loop_fixed_count (loop : OuterLoop) (N : Nat) :
∀ fuel (s : LoopRunState), N ≤ s.loop_state.iteration + fuel →
  (loop.run_loop (FixedIterationsStoppingCondition.mk N).toStoppingCondition
      fuel s).2 = N - s.loop_state.iteration ∧
  (loop.run_loop (FixedIterationsStoppingCondition.mk N).toStoppingCondition
      fuel s).1.loop_state.iteration = max s.loop_state.iteration N := by
intro fuel
induction fuel with
| zero =>
  intro s h
  simp only [Nat.add_zero] at h
  constructor
  · simp [OuterLoop.run_loop]
    omega
  · simp [OuterLoop.run_loop]
    omega
| succ f ih =>
  intro s h
  by_cases hstop : N ≤ s.loop_state.iteration
  · constructor
    · simp [OuterLoop.run_loop, FixedIterationsStoppingCondition.toStoppingCondition,
        FixedIterationsStoppingCondition.should_stop, hstop]
    · simp [OuterLoop.run_loop, FixedIterationsStoppingCondition.toStoppingCondition,
        FixedIterationsStoppingCondition.should_stop, hstop]
  · have hlt : s.loop_state.iteration < N := Nat.lt_of_not_le hstop
    have hiter := step_iteration loop s
    have hrec := ih (loop.step s) (by omega)
    have hko : (FixedIterationsStoppingCondition.mk N).toStoppingCondition.should_stop
        s.loop_state = false := by
      simp [FixedIterationsStoppingCondition.toStoppingCondition,
        FixedIterationsStoppingCondition.should_stop, hstop]
    have hunfold : loop.run_loop
        (FixedIterationsStoppingCondition.mk N).toStoppingCondition (f + 1) s
        = ((loop.run_loop (FixedIterationsStoppingCondition.mk N).toStoppingCondition
              f (loop.step s)).1,
           (loop.run_loop (FixedIterationsStoppingCondition.mk N).toStoppingCondition
              f (loop.step s)).2 + 1) := by
      simp [OuterLoop.run_loop, hko]
    rw [hunfold]
    obtain ⟨hc, hi⟩ := hrec
    constructor
    · simp only []
      omega
    · simp only []
      omega

/-- C2: started with counter 0 and enough fuel, the outer loop under
`FixedIterationsStoppingCondition` with bound `N` performs exactly `N`
evaluate/update cycles (for any sufficient fuel, so no further cycle ever
runs) and the stopping condition holds at the final state: the loop halts. -/
theorem fixed_iterations_runs_exactly_N (N fuel : Nat) (loop : OuterLoop)
    (s : LoopRunState) (h0 : s.loop_state.iteration = 0) (hfuel : N ≤ fuel) :
(loop.run_loop (FixedIterationsStoppingCondition.mk N).toStoppingCondition
    fuel s).2 = N ∧
(FixedIterationsStoppingCondition.mk N).should_stop
  (loop.run_loop (FixedIterationsStoppingCondition.mk N).toStoppingCondition
      fuel s).1.loop_state = true := by
have h := run_loop_fixed_count loop N fuel s (by omega)
constructor
· omega
· simp [FixedIterationsStoppingCondition.should_stop]
  omega

/-- Concrete instantiation of `fixed_iterations_runs_exactly_N` at bound 2
with fuel 5 from the empty initial state. -/
theorem fixed_iterations_runs_exactly_N_witness :
sEx.loop_state.iteration = 0 ∧ 2 ≤ 5 ∧
((loopEx.run_loop (FixedIterationsStoppingCondition.mk 2).toStoppingCondition
    5 sEx).2 = 2 ∧
 (FixedIterationsStoppingCondition.mk 2).should_stop
   (loopEx.run_loop (FixedIterationsStoppingCondition.mk 2).toStoppingCondition
       5 sEx).1.loop_state = true) :=
⟨rfl, by decide, fixed_iterations_runs_exactly_N 2 5 loopEx sEx rfl (by decide)⟩

/-- C3: every `LoopState` operation preserves the recorded history as a
prefix (so the observation count never decreases and nothing is ever
removed), and each completed cycle advances the iteration counter by
exactly one while only appending to the history. -/
theorem loop_state_history_monotone :
(∀ (op : LoopStateOp) (st : LoopState),
    ∃ t, (op.apply st).observations = st.observations ++ t) ∧
(∀ (op : LoopStateOp) (st : LoopState),
    st.observations.length ≤ (op.apply st).observations.length) ∧
(∀ (loop : OuterLoop) (s : LoopRunState),
    (loop.step s).loop_state.iteration = s.loop_state.iteration + 1 ∧
    ∃ t, (loop.step s).loop_state.observations = s.loop_state.observations ++ t) := by
refine ⟨?_, ?_, ?_⟩
· intro op st
  cases op with
  | append obs => exact ⟨obs, rfl⟩
  | advance => exact ⟨[], (List.append_nil _).symm⟩
· intro op st
  cases op with
  | append obs => simp [LoopStateOp.apply, LoopState.append]
  | advance => simp [LoopStateOp.apply, LoopState.advance]
· intro loop s
  exact ⟨step_iteration loop s, _, step_observations loop s⟩

/-- C4: the `Sequential` calculator returns exactly one candidate on every
call, and an outer loop configured with it evaluates exactly one point per
cycle (the history grows by one observation each cycle). -/
theorem sequential_single_candidate (sq : Sequential) (m : Model)
    (st : LoopState) (upd : ModelUpdater) (uf : UserFunction) (s : LoopRunState) :
(sq.compute_next_points m st).length = 1 ∧
((OuterLoop.mk sq.calculator upd uf).step s).loop_state.observations.length
  = s.loop_state.observations.length + 1 := by
constructor
· rfl
· simp [OuterLoop.step, LoopState.append, LoopState.advance,
    Sequential.calculator, Sequential.compute_next_points]

/-- C5: after `K` completed cycles the observation count equals the initial
count plus the sum, over the `K` cycles, of the number of candidates the
calculator proposed in that cycle. -/
theorem observation_count_after_K_cycles (loop : OuterLoop)
    (s : LoopRunState) (K : Nat) :
(loop.run_n K s).loop_state.observations.length =
  s.loop_state.observations.length +
    ∑ i ∈ Finset.range K, loop.cycleCandidates s i := by
induction K with
| zero => simp [OuterLoop.run_n]
| succ k ih =>
  have hstep : ((loop.run_n (k + 1) s)).loop_state.observations.length
      = (loop.run_n k s).loop_state.observations.length + loop.cycleCandidates s k := by
    have := step_observations loop (loop.run_n k s)
    simp only [OuterLoop.run_n, this, List.length_append, List.length_map,
      OuterLoop.cycleCandidates]
  rw [hstep, ih, Finset.sum_range_succ]
  omega

/-- C6: the outer loop is the two-phase machine: `Stopped` is terminal; a
step from `Running` reaches `Stopped` exactly when the stopping condition
signals true (leaving the state untouched); and when it signals false the
step stays in `Running` performing, in order, propose → evaluate → append →
update → advance on the run state. -/
theorem outer_loop_state_machine (loop : OuterLoop) (sc : StoppingCondition) :
(∀ s, loop.machineStep sc (LoopPhase.Stopped, s) = (LoopPhase.Stopped, s)) ∧
(∀ s, loop.machineStep sc (LoopPhase.Running, s) = (LoopPhase.Stopped, s) ↔
    sc.should_stop s.loop_state = true) ∧
(∀ s, sc.should_stop s.loop_state = false →
    loop.machineStep sc (LoopPhase.Running, s) =
      (LoopPhase.Running,
        LoopRunState.mk
          ((s.loop_state.append
            ((loop.candidate_point_calculator.compute_next_points s.model
              s.loop_state).map loop.user_function.evaluate)).advance)
          (loop.model_updater.update s.model
            (s.loop_state.append
              ((loop.candidate_point_calculator.compute_next_points s.model
                s.loop_state).map loop.user_function.evaluate))))) := by
refine ⟨fun s => rfl, ?_, ?_⟩
· intro s
  by_cases h : sc.should_stop s.loop_state
  · simp [OuterLoop.machineStep, h]
  · simp [OuterLoop.machineStep, h]
· intro s h
  simp [OuterLoop.machineStep, h, OuterLoop.step]

/-- Concrete instantiation of `outer_loop_state_machine`: with the bound-2
condition at counter 0 the machine stays `Running` and performs one cycle. -/
theorem outer_loop_state_machine_witness :
fic2.toStoppingCondition.should_stop sEx.loop_state = false ∧
loopEx.machineStep fic2.toStoppingCondition (LoopPhase.Running, sEx) =
  (LoopPhase.Running, loopEx.step sEx) := by
refine ⟨by decide, ?_⟩
rw [(outer_loop_state_machine loopEx fic2.toStoppingCondition).2.2 sEx (by decide)]
rfl

/-- C7: `FixedIterationsStoppingCondition` is a deterministic pure check of
the iteration counter: on any two loop states with the same counter it
returns the same boolean, and when it signals true the loop returns its
state unchanged (the check itself alters nothing). -/
theorem fixed_iterations_pure_check (c : FixedIterationsStoppingCondition)
    (s1 s2 : LoopState) (h : s1.iteration = s2.iteration)
    (loop : OuterLoop) (fuel : Nat) (s : LoopRunState)
    (hstop : c.should_stop s.loop_state = true) :
c.should_stop s1 = c.should_stop s2 ∧
loop.run_loop c.toStoppingCondition (fuel + 1) s = (s, 0) := by
constructor
· simp [FixedIterationsStoppingCondition.should_stop, h]
· simp [OuterLoop.run_loop, FixedIterationsStoppingCondition.toStoppingCondition, hstop]

/-- Concrete instantiation of `fixed_iterations_pure_check`: two states with
counter 5 but different histories get the same verdict from the bound-2
condition, and a run from an already-stopped state returns it unchanged. -/
theorem fixed_iterations_pure_check_witness :
s1Ex.iteration = s2Ex.iteration ∧
fic2.should_stop sStopEx.loop_state = true ∧
(fic2.should_stop s1Ex = fic2.should_stop s2Ex ∧
 loopEx.run_loop fic2.toStoppingCondition 1 sStopEx = (sStopEx, 0)) :=
⟨rfl, by decide,
 fixed_iterations_pure_check fic2 s1Ex s2Ex rfl loopEx 0 sStopEx (by decide)⟩

/-- C8: the wrapper either surfaces an evaluation error or returns exactly
as many observations as it was given candidates; it never succeeds while
dropping a candidate. -/
theorem user_function_wrapper_no_silent_drop (w : UserFunctionWrapper)
    (xs : List (List Int)) :
(∃ e, w.evaluate xs = Except.error e) ∨
(∃ obs, w.evaluate xs = Except.ok obs ∧ obs.length = xs.length) := by
induction xs with
| nil => exact Or.inr ⟨[], rfl, rfl⟩
| cons x xs ih =>
  cases hf : w.f x with
  | none =>
    exact Or.inl ⟨"user function evaluation failed",
      by simp [UserFunctionWrapper.evaluate, hf]⟩
  | some y =>
    cases ih with
    | inl h =>
      obtain ⟨e, he⟩ := h
      exact Or.inl ⟨e, by simp [UserFunctionWrapper.evaluate, hf, he]⟩
    | inr h =>
      obtain ⟨obs, ho, hl⟩ := h
      refine Or.inr ⟨Observation.mk x y :: obs, ?_, by simp [hl]⟩
      simp [UserFunctionWrapper.evaluate, hf, ho]

end EmukitLoop
